import Mathlib

/-!
Shallow embedding of the SQL-audit core of this repository:
the driver registry / `AuditResult` accumulator (driver package)
and the inspector's `Advise` pipeline with its rule-check functions
(inspector package).  Definitions are translated from the Go source;
helpers that are referenced by the source but whose code is not part
of the excerpt are modelled from the spec and marked as such.
-/

/-! ## Character-list helpers used to model Go string operations -/

/-- True when the first list is an initial segment of the second. -/
def charsStartWith : List Char → List Char → Bool
  | [], _ => true
  | _ :: _, [] => false
  | p :: ps, c :: cs => p == c && charsStartWith ps cs

/-- True when `pat` occurs as a contiguous sublist of the second argument. -/
def charsContain (pat : List Char) : List Char → Bool
  | [] => charsStartWith pat []
  | c :: cs => charsStartWith pat (c :: cs) || charsContain pat cs

/-- Go `strings.HasPrefix`-like check on strings, via their character lists. -/
def strStartsWith (pat s : String) : Bool :=
  charsStartWith pat.data s.data

/-- Go `strings.Contains`-like check on strings, via their character lists. -/
def strContains (s pat : String) : Bool :=
  charsContain pat.data s.data

/-! ## Rule levels (model package)

Modelled from the spec: the `model` package's level constants and
`RuleLevelMap` are not under `src/`; the spec names the levels
`Normal < Notice < Warn < Error` and the source indexes
`model.RuleLevelMap` with a level string, Go returning the zero value
`0` for an absent key. -/

def RuleLevelNormal : String := "Normal"

def RuleLevelNotice : String := "Notice"

def RuleLevelWarn : String := "Warn"

def RuleLevelError : String := "Error"

/-- Severity rank of a level string; unknown levels rank 0 like a Go
map lookup miss. -/
def RuleLevelMap (l : String) : Nat :=
  if l == RuleLevelError then 3
  else if l == RuleLevelWarn then 2
  else if l == RuleLevelNotice then 1
  else 0

/-- The four level strings the rule catalog uses. -/
def knownRuleLevels : List String :=
  [RuleLevelNormal, RuleLevelNotice, RuleLevelWarn, RuleLevelError]

/-! ## AuditResult (driver package, src/unnamed/part_000) -/

/-- One entry of `AuditResult.results`: Go struct `auditResult`. -/
structure AuditResultItem where
  level : String
  message : String
deriving DecidableEq, Repr

/-- The body of the loop in Go `AuditResult.Level`: keep the entry's
level whenever its rank is strictly larger than the current one. -/
def auditLevelStep (level : String) (r : AuditResultItem) : String :=
  if RuleLevelMap level < RuleLevelMap r.level then r.level else level

/-- Go `AuditResult.Level`: fold of the rank comparison over the
results, starting from the normal level. -/
def auditLevel (rs : List AuditResultItem) : String :=
  rs.foldl auditLevelStep RuleLevelNormal

/-- Model of the Go regular-expression test in `AuditResult.Message`.
The source builds the pattern with
`fmt.Sprintf` as `^\[Error|Warn|Notice|Normal|osc\]` (no grouping
parentheses), so by RE2 precedence the alternation spans the whole
pattern: the anchor and the opening bracket belong to the first
alternative only and the closing bracket to the last.  `MatchString`
therefore succeeds iff the message starts with `[Error`, or contains
`Warn`, `Notice` or `Normal` anywhere, or contains `osc]` anywhere. -/
def levelTagRegexMatch (s : String) : Bool :=
  strStartsWith ("[" ++ RuleLevelError) s
  || strContains s RuleLevelWarn
  || strContains s RuleLevelNotice
  || strContains s RuleLevelNormal
  || strContains s "osc]"

/-- One line of `AuditResult.Message`: the raw message when the regex
matches, otherwise the message prefixed with the bracketed level. -/
def auditMessageLine (r : AuditResultItem) : String :=
  if levelTagRegexMatch r.message then r.message
  else "[" ++ r.level ++ "]" ++ r.message

/-- Go `AuditResult.Message`: one line per result, joined by newlines. -/
def auditMessage (rs : List AuditResultItem) : String :=
  String.intercalate "\n" (rs.map auditMessageLine)

/-- Go `AuditResult.Add`: no-op on empty level or empty (raw, unformatted)
message, otherwise appends the entry with the `fmt.Sprintf`-formatted
message.  The formatting of `message` with `args` is passed in as the
function `sprintf`, since `fmt.Sprintf` is outside the excerpt. -/
def auditAdd {α : Type} (sprintf : String → List α → String)
    (rs : List AuditResultItem) (level message : String) (args : List α) :
    List AuditResultItem :=
  if level == "" || message == "" then rs
  else rs ++ [⟨level, sprintf message args⟩]

/-! ## Driver registry (driver package, src/unnamed/part_000) -/

/-- Go error values the embedded code can produce.  `errDriverNotSupported`
is a value of the declared struct type `ErrDriverNotSupported`;
`errorf` is a plain error built by `fmt.Errorf`; `stmtConflict` is the
inspector's `SQL_STMT_CONFLICT_ERROR` sentinel. -/
inductive GoError
  | errDriverNotSupported (driverTyp : String)
  | errorf (msg : String)
  | stmtConflict
deriving DecidableEq, Repr

/-- The `Error()` string of a Go error value.  The struct type's method
is in the source (`"driver type %v is not supported"`); the conflict
sentinel's text is not under `src/` and is modelled from the spec as a
statement-kind-conflict message. -/
def GoError.text : GoError → String
  | .errDriverNotSupported t => "driver type " ++ t ++ " is not supported"
  | .errorf m => m
  | .stmtConflict => "sql statement conflict"

/-- Go struct `model.Instance`, reduced to the field `NewDriver` reads. -/
structure Instance where
  dbType : String
deriving DecidableEq, Repr

/-- Lookup in the `drivers` map, modelled as an association list. -/
def lookupDriver {α : Type} : List (String × α) → String → Option α
  | [], _ => none
  | (n, h) :: rest, typ => if n == typ then some h else lookupDriver rest typ

/-- Go `NewDriver`: looks up the instance's engine type; on a miss it
returns the `fmt.Errorf` error naming the type (the source does not
construct an `ErrDriverNotSupported` value here); on a hit it returns
whatever the registered handler returns. -/
def NewDriver {δ : Type} (drivers : List (String × (Instance → Except GoError δ)))
    (inst : Instance) : Except GoError δ :=
  match lookupDriver drivers inst.dbType with
  | none => .error (.errorf ("driver type " ++ inst.dbType ++ " is not supported"))
  | some d => d inst

/-- True when an outcome is an error of the declared struct type
`ErrDriverNotSupported`. -/
def isTypedNotSupported {δ : Type} : Except GoError δ → Bool
  | .error (.errDriverNotSupported _) => true
  | _ => false

/-! ## Inspector AST (the slice of the tidb ast that the embedded checks read)

The parser is an external collaborator of the repository; the spec
treats it as a black box producing typed statement nodes.  Only the
node shapes and fields that `advisor.go` reads are embedded. -/

/-- The `mysql` column type codes the checks compare against
(`mysql.TypeLong` is `INT`, `mysql.TypeLonglong` is `BIGINT`,
`mysql.TypeString` is `CHAR`). -/
inductive MysqlTp
  | typeLong
  | typeLonglong
  | typeString
  | typeBlob
  | typeOther
deriving DecidableEq, Repr

/-- The `ast.ColumnOptionType` values the checks test for. -/
inductive ColumnOptionTp
  | primaryKey
  | notNull
  | autoIncrement
  | uniqKey
  | defaultValue
  | otherOption
deriving DecidableEq, Repr

/-- An `ast.ColumnDef`: name, type code, unsigned flag, display length,
and the option list. -/
structure ColumnDef where
  name : String
  tp : MysqlTp
  unsigned : Bool
  flen : Int
  options : List ColumnOptionTp
deriving DecidableEq, Repr

/-- The `ast.ConstraintType` values the checks test for. -/
inductive ConstraintTp
  | primaryKey
  | key
  | index
  | uniqKey
  | uniqIndex
  | foreignKey
  | otherConstraint
deriving DecidableEq, Repr

/-- An `ast.Constraint`: kind, constraint name, and the referenced
column names (`constraint.Keys`). -/
structure Constraint where
  tp : ConstraintTp
  name : String
  keys : List String
deriving DecidableEq, Repr

/-- An `ast.CreateTableStmt`, reduced to the fields the embedded checks
read. -/
structure CreateTableStmt where
  table : String
  cols : List ColumnDef
  constraints : List Constraint
deriving DecidableEq, Repr

/-- The statement-node variants the embedded claims exercise.  In the
tidb ast the create statements implement `ast.DDLNode` and
select/insert implement `ast.DMLNode`; `otherStmt` stands for nodes
that are neither. -/
inductive StmtNode
  | createTable (s : CreateTableStmt)
  | createDatabase (name : String)
  | createIndex (indexName : String) (table : String)
  | selectStmt
  | insertStmt
  | otherStmt
deriving DecidableEq, Repr

/-- Coarse statement kind used by `Advise`'s type switch. -/
inductive StmtClass
  | ddl
  | dml
  | otherKind
deriving DecidableEq, Repr

/-- Which interface (`ast.DDLNode` / `ast.DMLNode`) a node satisfies in
the source's type switch. -/
def classify : StmtNode → StmtClass
  | .createTable _ => .ddl
  | .createDatabase _ => .ddl
  | .createIndex _ _ => .ddl
  | .selectStmt => .dml
  | .insertStmt => .dml
  | .otherStmt => .otherKind

/-! ## Findings and spec-modelled inspector helpers -/

/-- The rule-name constants of `advisor.go` that the embedded checks
emit. -/
inductive RuleName
  | DDL_CHECK_PRIMARY_KEY_EXIST
  | DDL_CHECK_PRIMARY_KEY_TYPE
  | DDL_CHECK_OBJECT_NAME_LENGTH
  | DDL_DISABLE_USING_KEYWORD
deriving DecidableEq, Repr

/-- Modelled from the spec: `Inspector.addResult` is not under `src/`;
per the spec's Audit Result Accumulator it records one finding per
call, identified by the rule name with the formatted arguments.  A
check's return value is the ordered list of findings it added. -/
structure Finding where
  rule : RuleName
  args : List String
deriving DecidableEq, Repr

/-- The proposition that a run of a check added a finding for `r`. -/
def addsRule (fs : List Finding) (r : RuleName) : Prop :=
  ∃ f ∈ fs, f.rule = r

instance (fs : List Finding) (r : RuleName) : Decidable (addsRule fs r) := by
  unfold addsRule; infer_instance

/-- Modelled from the spec: helper `IsAllInOptions` is not under `src/`;
the checks call it to ask whether every listed option type appears
among a column's options. -/
def IsAllInOptions (options : List ColumnOptionTp) (opts : List ColumnOptionTp) : Bool :=
  opts.all (fun o => options.contains o)

/-- Modelled from the spec: helper `RemoveArrayRepeat` is not under
`src/`; the spec says violating names are reported "deduplicated", so
it keeps the first occurrence of each name in order. -/
def RemoveArrayRepeat : List String → List String
  | [] => []
  | x :: xs => x :: (RemoveArrayRepeat xs).filter (fun y => !(y == x))

/-! ## checkPrimaryKey (src/inspector/advisor.go) -/

/-- The type test the source applies to a primary-key column:
`col.Tp.Tp == mysql.TypeLonglong`, the unsigned flag, and the
auto-increment option. -/
def colPkGoodType (col : ColumnDef) : Bool :=
  col.tp == MysqlTp.typeLonglong && col.unsigned
    && IsAllInOptions col.options [ColumnOptionTp.autoIncrement]

/-- Go `Inspector.checkPrimaryKey`: on a `CREATE TABLE`, `hasPk` is set
by a column carrying the primary-key option or by a primary-key table
constraint; the shape flag is set by such a column of the right type,
or, for a single-column primary-key constraint, by the named column
having the right type.  Missing-key and wrong-type findings are added
from the two final `if`s; other node kinds return no findings. -/
def checkPrimaryKey : StmtNode → List Finding
  | .createTable stmt =>
    let hasPk :=
      stmt.cols.any (fun col => IsAllInOptions col.options [ColumnOptionTp.primaryKey])
      || stmt.constraints.any (fun c => c.tp == ConstraintTp.primaryKey)
    let pkGood :=
      stmt.cols.any (fun col =>
        IsAllInOptions col.options [ColumnOptionTp.primaryKey] && colPkGoodType col)
      || stmt.constraints.any (fun c =>
          c.tp == ConstraintTp.primaryKey &&
            (match c.keys with
             | [k] => stmt.cols.any (fun col => col.name == k && colPkGoodType col)
             | _ => false))
    (if !hasPk then [⟨RuleName.DDL_CHECK_PRIMARY_KEY_EXIST, []⟩] else [])
      ++ (if hasPk && !pkGood then [⟨RuleName.DDL_CHECK_PRIMARY_KEY_TYPE, []⟩] else [])
  | _ => []

/-- The proposition the independence claim about the primary-key check
asserts: some statement receives both of its findings in one run. -/
def bothPkFindingsPossible : Prop :=
  ∃ node : StmtNode,
    addsRule (checkPrimaryKey node) RuleName.DDL_CHECK_PRIMARY_KEY_EXIST
      ∧ addsRule (checkPrimaryKey node) RuleName.DDL_CHECK_PRIMARY_KEY_TYPE

/-! ## checkNewObjectName (src/inspector/advisor.go) -/

/-- The name-collection phase of `Inspector.checkNewObjectName`:
`none` models the default branch's early `return nil`; otherwise the
collected names in source order (table, then columns, then the
index-like constraints for `CREATE TABLE`). -/
def collectNewObjectNames : StmtNode → Option (List String)
  | .createDatabase name => some [name]
  | .createTable stmt =>
    some (stmt.table :: (stmt.cols.map (fun c => c.name)
      ++ stmt.constraints.filterMap (fun c =>
          match c.tp with
          | .uniqKey => some c.name
          | .key => some c.name
          | .uniqIndex => some c.name
          | .index => some c.name
          | _ => none)))
  | .createIndex indexName _ => some [indexName]
  | _ => none

/-- Go `Inspector.checkNewObjectName`, parameterized by the reserved
keyword test `kw` (modelled from the spec: `IsMysqlReservedKeyword` is
not under `src/`; the spec only says names must not be reserved
keywords).  One length finding when any name exceeds 64 bytes (the
source breaks after the first), then one keyword finding listing the
violating names joined after deduplication. -/
def checkNewObjectName (kw : String → Bool) (node : StmtNode) : List Finding :=
  match collectNewObjectNames node with
  | none => []
  | some names =>
    (if names.any (fun n => 64 < n.utf8ByteSize) then
        [⟨RuleName.DDL_CHECK_OBJECT_NAME_LENGTH, []⟩]
      else [])
      ++ (let invalidNames := names.filter kw
          if invalidNames.isEmpty then []
          else [⟨RuleName.DDL_DISABLE_USING_KEYWORD,
                 [String.intercalate ", " (RemoveArrayRepeat invalidNames)]⟩])

/-! ## The Advise pipeline (src/inspector/advisor.go, Inspector.Advise)

The inspector carries state the checks read and update (schema cache,
collected alter-table statements); it is abstracted as a type `σ`
threaded through the check functions, and the environment carries the
parser, the ordered rule list, the rule-name-to-check-function map
(`i.RulesFunc`, where `none` covers both a missing entry and a Go nil
function value, which the loop skips), and `updateSchemaCtx`. -/

structure AdviseEnv (σ : Type) where
  parseOneSql : String → Except GoError StmtNode
  rules : List String
  rulesFunc : String → Option (StmtNode → σ → Except GoError (List Finding × σ))
  updateSchemaCtx : StmtNode → σ → σ

/-- The inspector flags and context the loop mutates. -/
structure AdviseState (σ : Type) where
  isDDLStmt : Bool
  isDMLStmt : Bool
  ctx : σ

/-- What `Advise` leaves behind: for each input statement, `some fs`
when the loop reached the three assignments
(`InspectStatus`/`InspectLevel`/`InspectResult`) with that statement's
accumulated findings, `none` when it did not; the trace of executed
check functions as (statement index, rule name) pairs; the returned
error; and the final inspector flags and context. -/
structure AdviseOut (σ : Type) where
  recorded : List (Option (List Finding))
  trace : List (Nat × String)
  err : Option GoError
  final : AdviseState σ

/-- The `none` column for statements whose result fields were never
assigned. -/
def noneRecorded : List String → List (Option (List Finding))
  | [] => []
  | _ :: xs => none :: noneRecorded xs

/-- The type-switch step of `Advise`: a DDL node conflicts with an
earlier DML statement and vice versa, otherwise the matching flag is
set; nodes of neither interface leave the state unchanged. -/
def classifyStep {σ : Type} (st : AdviseState σ) (node : StmtNode) :
    Except GoError (AdviseState σ) :=
  match classify node with
  | .ddl => if st.isDMLStmt then .error .stmtConflict else .ok { st with isDDLStmt := true }
  | .dml => if st.isDDLStmt then .error .stmtConflict else .ok { st with isDMLStmt := true }
  | .otherKind => .ok st

/-- The inner rule loop of `Advise`: rules without a check function are
skipped; an erroring check aborts with its error; otherwise the
findings of all checks accumulate in order.  The first component is
the list of rule names whose check function actually ran. -/
def runRules {σ : Type} (env : AdviseEnv σ) (node : StmtNode) :
    List String → σ → List String × Except GoError (List Finding × σ)
  | [], ctx => ([], .ok ([], ctx))
  | r :: rs, ctx =>
    match env.rulesFunc r with
    | none => runRules env node rs ctx
    | some fn =>
      match fn node ctx with
      | .error e => ([r], .error e)
      | .ok (fs, ctx1) =>
        let rest := runRules env node rs ctx1
        (r :: rest.1,
          match rest.2 with
          | .error e => .error e
          | .ok (fs1, ctx2) => .ok (fs ++ fs1, ctx2))

/-- The statement loop of `Advise`.  `idx` is the position of the first
statement of the remaining list in the whole batch.  Parse errors,
kind conflicts and check errors return immediately, leaving the
remaining statements' result fields unassigned; a fully processed
statement records its findings, updates the schema context, resets the
accumulator and continues. -/
def adviseGo {σ : Type} (env : AdviseEnv σ) :
    Nat → AdviseState σ → List String → AdviseOut σ
  | _, st, [] => ⟨[], [], none, st⟩
  | idx, st, sql :: rest =>
    match env.parseOneSql sql with
    | .error e => ⟨noneRecorded (sql :: rest), [], some e, st⟩
    | .ok node =>
      match classifyStep st node with
      | .error e => ⟨noneRecorded (sql :: rest), [], some e, st⟩
      | .ok st1 =>
        let ran := runRules env node env.rules st1.ctx
        match ran.2 with
        | .error e =>
          ⟨noneRecorded (sql :: rest), ran.1.map (fun r => (idx, r)), some e, st1⟩
        | .ok (fs, ctx1) =>
          let st2 := { st1 with ctx := env.updateSchemaCtx node ctx1 }
          let o := adviseGo env (idx + 1) st2 rest
          ⟨some fs :: o.recorded, ran.1.map (fun r => (idx, r)) ++ o.trace, o.err, o.final⟩

/-- Go `Inspector.Advise` over a batch, starting with both kind flags
clear and the given initial inspector context. -/
def Advise {σ : Type} (env : AdviseEnv σ) (ctx0 : σ) (sqls : List String) : AdviseOut σ :=
  adviseGo env 0 ⟨false, false, ctx0⟩ sqls

/-- Concrete inspector environment over a trivial context: a batch
whose first statement is a `CREATE TABLE` and whose second is a
`SELECT`, with no registered check functions. -/
def demoEnvC5 : AdviseEnv Unit where
  parseOneSql := fun s =>
    if s == "CREATE TABLE t1 (id INT)" then
      .ok (.createTable ⟨"t1", [⟨"id", .typeLong, false, 11, []⟩], []⟩)
    else if s == "SELECT * FROM t1" then .ok .selectStmt
    else .error (.errorf "parse error")
  rules := ["all_check"]
  rulesFunc := fun _ => none
  updateSchemaCtx := fun _ c => c

/-- Concrete inspector environment over a trivial context whose single
check function fails exactly on the table `t2`. -/
def demoEnvC1 : AdviseEnv Unit where
  parseOneSql := fun s =>
    if s == "CREATE TABLE t1 (id INT)" then
      .ok (.createTable ⟨"t1", [⟨"id", .typeLong, false, 11, []⟩], []⟩)
    else if s == "CREATE TABLE t2 (id INT)" then
      .ok (.createTable ⟨"t2", [⟨"id", .typeLong, false, 11, []⟩], []⟩)
    else .error (.errorf "parse error")
  rules := ["schema_check"]
  rulesFunc := fun r =>
    if r == "schema_check" then
      some (fun node ctx =>
        match node with
        | .createTable s =>
          if s.table == "t2" then .error (.errorf "schema lookup failed")
          else .ok ([], ctx)
        | _ => .ok ([], ctx))
    else none
  updateSchemaCtx := fun _ c => c

/-- The node the external tidb parser produces for
`CREATE TABLE t1 (id INT(10) UNSIGNED NOT NULL AUTO_INCREMENT PRIMARY KEY)`:
the column type code for `INT` is `mysql.TypeLong` (32-bit), with the
unsigned flag, display length 10, and the three column options. -/
def t1CreateTableNode : StmtNode :=
  .createTable ⟨"t1",
    [⟨"id", .typeLong, true, 10,
      [ColumnOptionTp.notNull, ColumnOptionTp.autoIncrement, ColumnOptionTp.primaryKey]⟩],
    []⟩

/-- The node the external tidb parser produces for
`CREATE TABLE t2 (id INT)`. -/
def t2CreateTableNode : StmtNode :=
  .createTable ⟨"t2", [⟨"id", .typeLong, false, 11, []⟩], []⟩

/-- The joined, deduplicated keyword-violation argument the check
reports for a given name list and keyword test. -/
def keywordFindingArg (kw : String → Bool) (names : List String) : String :=
  String.intercalate ", " (RemoveArrayRepeat (names.filter kw))

/-- A 65-byte ASCII identifier. -/
def name65 : String :=
  "aaaaaaaaaaaaaaaaaaaaaaaaaaaaaaaaaaaaaaaaaaaaaaaaaaaaaaaaaaaaaaaaa"

/-- A concrete driver registry holding one engine type. -/
def demoDrivers : List (String × (Instance → Except GoError Unit)) :=
  [("mysql", fun _ => .ok ())]

/-- Unassigned slots for a concatenation split at the concatenation. -/
theorem noneRecorded_append :
    ∀ xs ys : List String, noneRecorded (xs ++ ys) = noneRecorded xs ++ noneRecorded ys
  | [], _ => rfl
  | _ :: xs, ys => by simp [noneRecorded, noneRecorded_append xs ys]

/-- Splitting a batch: the loop on `xs ++ ys` is the loop on `xs`,
followed (when `xs` finished without error) by the loop on `ys` from
the reached state, or (on an error inside `xs`) by unassigned slots
for all of `ys`. -/
theorem adviseGo_append {σ : Type} (env : AdviseEnv σ) (ys : List String) :
    ∀ (xs : List String) (idx : Nat) (st : AdviseState σ),
      adviseGo env idx st (xs ++ ys) =
        (let o := adviseGo env idx st xs
         match o.err with
         | some e => ⟨o.recorded ++ noneRecorded ys, o.trace, some e, o.final⟩
         | none =>
           let o2 := adviseGo env (idx + xs.length) o.final ys
           ⟨o.recorded ++ o2.recorded, o.trace ++ o2.trace, o2.err, o2.final⟩)
  | [], idx, st => by simp [adviseGo]
  | sql :: rest, idx, st => by
    show adviseGo env idx st (sql :: (rest ++ ys)) = _
    cases hp : env.parseOneSql sql with
    | error e =>
      simp only [adviseGo, hp]
      simp [noneRecorded, noneRecorded_append]
    | ok node =>
      cases hc : classifyStep st node with
      | error e =>
        simp only [adviseGo, hp, hc]
        simp [noneRecorded, noneRecorded_append]
      | ok st1 =>
        cases hr : (runRules env node env.rules st1.ctx).2 with
        | error e =>
          simp only [adviseGo, hp, hc, hr]
          simp [noneRecorded, noneRecorded_append]
        | ok out =>
          obtain ⟨fs, ctx1⟩ := out
          have ih := adviseGo_append env ys rest (idx + 1)
            { st1 with ctx := env.updateSchemaCtx node ctx1 }
          have harith : idx + (rest.length + 1) = idx + 1 + rest.length := by omega
          simp only [adviseGo, hp, hc, hr]
          simp only [ih, List.length_cons, harith]
          cases he : (adviseGo env (idx + 1)
              { st1 with ctx := env.updateSchemaCtx node ctx1 } rest).err with
          | none => simp [he]
          | some e => simp [he, noneRecorded]

/-- Every executed check in the loop belongs to a statement of the
processed list: its statement index lies in `[idx, idx + length)`. -/
theorem adviseGo_trace_bound {σ : Type} (env : AdviseEnv σ) :
    ∀ (xs : List String) (idx : Nat) (st : AdviseState σ),
      ∀ p ∈ (adviseGo env idx st xs).trace, idx ≤ p.1 ∧ p.1 < idx + xs.length
  | [], idx, st => by simp [adviseGo]
  | sql :: rest, idx, st => by
    intro p hp
    revert hp
    cases hpp : env.parseOneSql sql with
    | error e => simp [adviseGo, hpp]
    | ok node =>
      cases hc : classifyStep st node with
      | error e => simp [adviseGo, hc, hpp]
      | ok st1 =>
        cases hr : (runRules env node env.rules st1.ctx).2 with
        | error e =>
          simp only [adviseGo, hpp, hc, hr, List.mem_map]
          rintro ⟨r, _, rfl⟩
          simp
        | ok out =>
          obtain ⟨fs, ctx1⟩ := out
          simp only [adviseGo, hpp, hc, hr, List.mem_append, List.mem_map]
          rintro (⟨r, _, rfl⟩ | hmem)
          · simp
          · have := adviseGo_trace_bound env rest (idx + 1)
              { st1 with ctx := env.updateSchemaCtx node ctx1 } p hmem
            simp only [List.length_cons]
            omega

/-- When the loop finishes a list without error, every statement of the
list got its result fields assigned. -/
theorem adviseGo_ok_all_recorded {σ : Type} (env : AdviseEnv σ) :
    ∀ (xs : List String) (idx : Nat) (st : AdviseState σ),
      (adviseGo env idx st xs).err = none →
      ∀ x ∈ (adviseGo env idx st xs).recorded, x.isSome = true
  | [], idx, st => by simp [adviseGo]
  | sql :: rest, idx, st => by
    intro herr
    revert herr
    cases hpp : env.parseOneSql sql with
    | error e => simp [adviseGo, hpp]
    | ok node =>
      cases hc : classifyStep st node with
      | error e => simp [adviseGo, hc, hpp]
      | ok st1 =>
        cases hr : (runRules env node env.rules st1.ctx).2 with
        | error e => simp [adviseGo, hpp, hc, hr]
        | ok out =>
          obtain ⟨fs, ctx1⟩ := out
          simp only [adviseGo, hpp, hc, hr]
          intro herr x hx
          rcases List.mem_cons.mp hx with rfl | hx
          · rfl
          · exact adviseGo_ok_all_recorded env rest (idx + 1)
              { st1 with ctx := env.updateSchemaCtx node ctx1 } herr x hx

/-- C5: once the batch's kind is locked by an earlier classified
statement, a statement of the conflicting kind makes `Advise` return
`SQL_STMT_CONFLICT_ERROR` right after parsing and classifying it: the
output keeps only the earlier statements' records, the conflicting
statement and all later ones stay unrecorded, and the executed-check
trace contains no check of the conflicting statement or any later one
(every traced index is below the conflicting statement's index). -/
theorem advise_stmt_kind_conflict {σ : Type} (env : AdviseEnv σ) (ctx0 : σ)
    (pre : List String) (sql : String) (node : StmtNode) (rest : List String)
    (hpre : (adviseGo env 0 ⟨false, false, ctx0⟩ pre).err = none)
    (hparse : env.parseOneSql sql = .ok node)
    (hconf :
      ((adviseGo env 0 ⟨false, false, ctx0⟩ pre).final.isDDLStmt = true
          ∧ classify node = .dml)
        ∨ ((adviseGo env 0 ⟨false, false, ctx0⟩ pre).final.isDMLStmt = true
          ∧ classify node = .ddl)) :
    Advise env ctx0 (pre ++ sql :: rest) =
      ⟨(adviseGo env 0 ⟨false, false, ctx0⟩ pre).recorded ++ noneRecorded (sql :: rest),
        (adviseGo env 0 ⟨false, false, ctx0⟩ pre).trace,
        some GoError.stmtConflict,
        (adviseGo env 0 ⟨false, false, ctx0⟩ pre).final⟩
      ∧ ∀ p ∈ (Advise env ctx0 (pre ++ sql :: rest)).trace, p.1 < pre.length := by
  have hcs : classifyStep (adviseGo env 0 ⟨false, false, ctx0⟩ pre).final node
      = Except.error GoError.stmtConflict := by
    rcases hconf with ⟨hd, hcl⟩ | ⟨hd, hcl⟩ <;> simp [classifyStep, hcl, hd]
  have hmain : Advise env ctx0 (pre ++ sql :: rest) =
      ⟨(adviseGo env 0 ⟨false, false, ctx0⟩ pre).recorded ++ noneRecorded (sql :: rest),
        (adviseGo env 0 ⟨false, false, ctx0⟩ pre).trace,
        some GoError.stmtConflict,
        (adviseGo env 0 ⟨false, false, ctx0⟩ pre).final⟩ := by
    rw [Advise, adviseGo_append]
    simp only [hpre]
    simp only [adviseGo, hparse, hcs]
    simp
  refine ⟨hmain, ?_⟩
  intro p hp
  rw [hmain] at hp
  have := adviseGo_trace_bound env pre 0 ⟨false, false, ctx0⟩ p hp
  omega

/-- Witness for C5 at a concrete two-statement batch: the DDL prefix
succeeds, then the SELECT makes `Advise` fail with the conflict
error. -/
theorem advise_stmt_kind_conflict_witness :
    (adviseGo demoEnvC5 0 ⟨false, false, ()⟩ ["CREATE TABLE t1 (id INT)"]).err = none
      ∧ (Advise demoEnvC5 ()
          (["CREATE TABLE t1 (id INT)"] ++ "SELECT * FROM t1" :: [])).err
        = some GoError.stmtConflict := by
  have h := advise_stmt_kind_conflict demoEnvC5 () ["CREATE TABLE t1 (id INT)"]
    "SELECT * FROM t1" .selectStmt [] rfl rfl (Or.inl ⟨rfl, rfl⟩)
  exact ⟨rfl, by rw [h.1]⟩

/-- C1 counterexample: a two-statement batch whose check fails on the
second statement.  `Advise` returns the check's error, yet the first
statement's inspect fields were already assigned (`some []`), so the
batch does leave per-statement results behind, contrary to the
claim. -/
theorem advise_no_partial_results_counterexample :
    (Advise demoEnvC1 () ["CREATE TABLE t1 (id INT)", "CREATE TABLE t2 (id INT)"]).err
        = some (GoError.errorf "schema lookup failed")
      ∧ (Advise demoEnvC1 ()
            ["CREATE TABLE t1 (id INT)", "CREATE TABLE t2 (id INT)"]).recorded
        = [some [], none] :=
  ⟨rfl, rfl⟩

/-- C1 amended: when a check function fails on a statement, `Advise`
returns that error; the failing statement and all later ones get no
recorded inspect status, level or message, while every statement
before the failing one keeps the results already recorded for it. -/
theorem advise_check_error_keeps_earlier_results {σ : Type} (env : AdviseEnv σ)
    (ctx0 : σ) (pre : List String) (sql : String) (node : StmtNode)
    (rest : List String) (st1 : AdviseState σ) (e : GoError)
    (hpre : (adviseGo env 0 ⟨false, false, ctx0⟩ pre).err = none)
    (hparse : env.parseOneSql sql = .ok node)
    (hclass : classifyStep (adviseGo env 0 ⟨false, false, ctx0⟩ pre).final node
        = .ok st1)
    (hrules : (runRules env node env.rules st1.ctx).2 = .error e) :
    Advise env ctx0 (pre ++ sql :: rest) =
      ⟨(adviseGo env 0 ⟨false, false, ctx0⟩ pre).recorded ++ noneRecorded (sql :: rest),
        (adviseGo env 0 ⟨false, false, ctx0⟩ pre).trace
          ++ (runRules env node env.rules st1.ctx).1.map (fun r => (pre.length, r)),
        some e, st1⟩
      ∧ ∀ x ∈ (adviseGo env 0 ⟨false, false, ctx0⟩ pre).recorded, x.isSome = true := by
  constructor
  · rw [Advise, adviseGo_append]
    simp only [hpre]
    simp only [adviseGo, hparse, hclass, hrules]
    simp
  · exact adviseGo_ok_all_recorded env pre 0 ⟨false, false, ctx0⟩ hpre

/-- Witness for the amended C1 at the concrete failing batch. -/
theorem advise_check_error_keeps_earlier_results_witness :
    (adviseGo demoEnvC1 0 ⟨false, false, ()⟩ ["CREATE TABLE t1 (id INT)"]).err = none
      ∧ (Advise demoEnvC1 ()
            (["CREATE TABLE t1 (id INT)"] ++ "CREATE TABLE t2 (id INT)" :: [])).err
          = some (GoError.errorf "schema lookup failed")
      ∧ ∀ x ∈ (adviseGo demoEnvC1 0 ⟨false, false, ()⟩
            ["CREATE TABLE t1 (id INT)"]).recorded, x.isSome = true := by
  have h := advise_check_error_keeps_earlier_results demoEnvC1 ()
    ["CREATE TABLE t1 (id INT)"] "CREATE TABLE t2 (id INT)"
    (.createTable ⟨"t2", [⟨"id", .typeLong, false, 11, []⟩], []⟩) []
    ⟨true, false, ()⟩ (.errorf "schema lookup failed") rfl rfl rfl rfl
  exact ⟨rfl, by rw [h.1], h.2⟩

/-- C2 counterexample: on the `t1` statement the check does add the
wrong-primary-key-type finding, because `INT(10) UNSIGNED` is
`mysql.TypeLong`, not the required `mysql.TypeLonglong` (`BIGINT`). -/
theorem checkPrimaryKey_t1_type_counterexample :
    (⟨RuleName.DDL_CHECK_PRIMARY_KEY_TYPE, []⟩ : Finding) ∈ checkPrimaryKey t1CreateTableNode := by
  decide

/-- C2 amended: the `t1` statement yields no missing-primary-key
finding but exactly one wrong-primary-key-type finding (its key is a
32-bit `INT`, and the check demands an unsigned auto-increment
`BIGINT`); the `t2` statement yields exactly one missing-primary-key
finding. -/
theorem checkPrimaryKey_t1_t2 :
    checkPrimaryKey t1CreateTableNode = [⟨RuleName.DDL_CHECK_PRIMARY_KEY_TYPE, []⟩]
      ∧ checkPrimaryKey t2CreateTableNode = [⟨RuleName.DDL_CHECK_PRIMARY_KEY_EXIST, []⟩] := by
  decide

/-- Auxiliary Boolean form of the primary-key check's mutual
exclusion: the two findings never both occur in one run's output,
because the first fires only when `hasPk` is false and the second only
when it is true. -/
theorem pk_findings_never_both (node : StmtNode) :
    ((checkPrimaryKey node).any
        (fun f => f.rule == RuleName.DDL_CHECK_PRIMARY_KEY_EXIST)
      && (checkPrimaryKey node).any
        (fun f => f.rule == RuleName.DDL_CHECK_PRIMARY_KEY_TYPE)) = false := by
  have hshape : ∀ a b : Bool,
      (((if !a then [(⟨RuleName.DDL_CHECK_PRIMARY_KEY_EXIST, []⟩ : Finding)] else [])
          ++ (if a && !b then [(⟨RuleName.DDL_CHECK_PRIMARY_KEY_TYPE, []⟩ : Finding)] else [])).any
            (fun f => f.rule == RuleName.DDL_CHECK_PRIMARY_KEY_EXIST)
        && ((if !a then [(⟨RuleName.DDL_CHECK_PRIMARY_KEY_EXIST, []⟩ : Finding)] else [])
          ++ (if a && !b then [(⟨RuleName.DDL_CHECK_PRIMARY_KEY_TYPE, []⟩ : Finding)] else [])).any
            (fun f => f.rule == RuleName.DDL_CHECK_PRIMARY_KEY_TYPE)) = false := by
    decide
  cases node with
  | createTable s => exact hshape _ _
  | createDatabase name => rfl
  | createIndex i t => rfl
  | selectStmt => rfl
  | insertStmt => rfl
  | otherStmt => rfl

/-- The accumulator proposition matches its executable Boolean test. -/
theorem addsRule_iff_any (fs : List Finding) (r : RuleName) :
    addsRule fs r ↔ fs.any (fun f => f.rule == r) = true := by
  simp [addsRule, List.any_eq_true]

/-- C3 counterexample: the independence assertion is false — no
statement makes a single run of `checkPrimaryKey` add both the
missing-primary-key finding and the wrong-primary-key-type finding. -/
theorem checkPrimaryKey_both_findings_counterexample :
    bothPkFindingsPossible ↔ False := by
  constructor
  · rintro ⟨node, h1, h2⟩
    have h := pk_findings_never_both node
    rw [(addsRule_iff_any _ _).mp h1, (addsRule_iff_any _ _).mp h2] at h
    exact absurd h (by decide)
  · exact False.elim

/-- C3 amended: the two findings of the primary-key check are mutually
exclusive — every single run of the check omits at least one of
them. -/
theorem checkPrimaryKey_exclusive (node : StmtNode) :
    ¬ addsRule (checkPrimaryKey node) RuleName.DDL_CHECK_PRIMARY_KEY_EXIST
      ∨ ¬ addsRule (checkPrimaryKey node) RuleName.DDL_CHECK_PRIMARY_KEY_TYPE := by
  have h := pk_findings_never_both node
  rcases Bool.and_eq_false_iff.mp h with h1 | h1
  · left
    rw [addsRule_iff_any]
    simp [h1]
  · right
    rw [addsRule_iff_any]
    simp [h1]

/-- C9: over the names collected from a statement, an over-64-byte name
yields the object-name-length finding; a reserved-keyword name yields
the single keyword finding carrying all violating names joined after
deduplication, and no other keyword finding; a name that is both
over-length and a keyword yields both findings in the same run. -/
theorem checkNewObjectName_findings (kw : String → Bool) (node : StmtNode)
    (names : List String)
    (hc : collectNewObjectNames node = some names) :
    ((∃ n ∈ names, 64 < n.utf8ByteSize) →
        addsRule (checkNewObjectName kw node) RuleName.DDL_CHECK_OBJECT_NAME_LENGTH)
      ∧ ((∃ n ∈ names, kw n = true) →
          (⟨RuleName.DDL_DISABLE_USING_KEYWORD, [keywordFindingArg kw names]⟩ : Finding)
              ∈ checkNewObjectName kw node
            ∧ ∀ f ∈ checkNewObjectName kw node,
                f.rule = RuleName.DDL_DISABLE_USING_KEYWORD →
                f = ⟨RuleName.DDL_DISABLE_USING_KEYWORD, [keywordFindingArg kw names]⟩)
      ∧ (∀ n ∈ names, kw n = true → 64 < n.utf8ByteSize →
          addsRule (checkNewObjectName kw node) RuleName.DDL_CHECK_OBJECT_NAME_LENGTH
            ∧ addsRule (checkNewObjectName kw node) RuleName.DDL_DISABLE_USING_KEYWORD) := by
  have h1 : (∃ n ∈ names, 64 < n.utf8ByteSize) →
      addsRule (checkNewObjectName kw node) RuleName.DDL_CHECK_OBJECT_NAME_LENGTH := by
    rintro ⟨n, hn, hlong⟩
    have hany : names.any (fun n => decide (64 < n.utf8ByteSize)) = true :=
      List.any_eq_true.mpr ⟨n, hn, by simpa using hlong⟩
    refine ⟨⟨RuleName.DDL_CHECK_OBJECT_NAME_LENGTH, []⟩, ?_, rfl⟩
    simp [checkNewObjectName, hc, hany]
  have h2 : (∃ n ∈ names, kw n = true) →
      (⟨RuleName.DDL_DISABLE_USING_KEYWORD, [keywordFindingArg kw names]⟩ : Finding)
          ∈ checkNewObjectName kw node
        ∧ ∀ f ∈ checkNewObjectName kw node,
            f.rule = RuleName.DDL_DISABLE_USING_KEYWORD →
            f = ⟨RuleName.DDL_DISABLE_USING_KEYWORD, [keywordFindingArg kw names]⟩ := by
    rintro ⟨n, hn, hkwn⟩
    have hne : (names.filter kw).isEmpty = false := by
      rcases he : (names.filter kw).isEmpty with _ | _
      · rfl
      · rw [List.isEmpty_iff] at he
        have : kw n = true → False := by
          intro hk
          have : n ∈ names.filter kw := List.mem_filter.mpr ⟨hn, hk⟩
          rw [he] at this
          exact (List.not_mem_nil n) this
        exact absurd hkwn this
    constructor
    · simp [checkNewObjectName, hc, hne, keywordFindingArg]
    · intro f hf hfr
      rw [checkNewObjectName, hc] at hf
      simp only [hne] at hf
      rcases List.mem_append.mp hf with hfa | hfb
      · rcases hx : names.any (fun n => decide (64 < n.utf8ByteSize)) with _ | _
        · rw [hx] at hfa
          simp at hfa
        · rw [hx] at hfa
          simp at hfa
          rw [hfa] at hfr
          simp at hfr
      · simp at hfb
        rw [hfb]
        simp [keywordFindingArg]
  refine ⟨h1, h2, ?_⟩
  intro n hn hkwn hlong
  exact ⟨h1 ⟨n, hn, hlong⟩,
    ⟨⟨RuleName.DDL_DISABLE_USING_KEYWORD, [keywordFindingArg kw names]⟩,
      (h2 ⟨n, hn, hkwn⟩).1, rfl⟩⟩

/-- Witness for C9: a table whose name is 65 bytes long and is (under
the supplied keyword test) also a reserved keyword receives both the
length finding and the keyword finding in one run. -/
theorem checkNewObjectName_findings_witness :
    collectNewObjectNames (.createTable ⟨name65, [], []⟩) = some [name65]
      ∧ addsRule (checkNewObjectName (fun s => s == name65) (.createTable ⟨name65, [], []⟩))
          RuleName.DDL_CHECK_OBJECT_NAME_LENGTH
      ∧ addsRule (checkNewObjectName (fun s => s == name65) (.createTable ⟨name65, [], []⟩))
          RuleName.DDL_DISABLE_USING_KEYWORD := by
  have h := checkNewObjectName_findings (fun s => s == name65)
    (.createTable ⟨name65, [], []⟩) [name65] rfl
  have h3 := h.2.2 name65 (by simp) (by simp) (by decide)
  exact ⟨rfl, h3.1, h3.2⟩

/-- The level fold never decreases the rank of its accumulator. -/
theorem auditLevel_foldl_acc_le :
    ∀ (rs : List AuditResultItem) (acc : String),
      RuleLevelMap acc ≤ RuleLevelMap (rs.foldl auditLevelStep acc)
  | [], _ => le_refl _
  | r :: rs, acc => by
    have h := auditLevel_foldl_acc_le rs (auditLevelStep acc r)
    simp only [List.foldl_cons]
    refine le_trans ?_ h
    unfold auditLevelStep
    by_cases hlt : RuleLevelMap acc < RuleLevelMap r.level
    · rw [if_pos hlt]
      exact le_of_lt hlt
    · rw [if_neg hlt]

/-- The level fold returns its accumulator or the level of one of the
entries. -/
theorem auditLevel_foldl_mem :
    ∀ (rs : List AuditResultItem) (acc : String),
      rs.foldl auditLevelStep acc = acc
        ∨ rs.foldl auditLevelStep acc ∈ rs.map (fun r => r.level)
  | [], _ => Or.inl rfl
  | r :: rs, acc => by
    simp only [List.foldl_cons, List.map_cons]
    rcases auditLevel_foldl_mem rs (auditLevelStep acc r) with h | h
    · rw [h]
      unfold auditLevelStep
      by_cases hlt : RuleLevelMap acc < RuleLevelMap r.level
      · rw [if_pos hlt]
        exact Or.inr (List.mem_cons_self _ _)
      · rw [if_neg hlt]
        exact Or.inl rfl
    · exact Or.inr (List.mem_cons_of_mem _ h)

/-- Every entry's rank is bounded by the rank of the level fold's
result. -/
theorem auditLevel_foldl_elem_le :
    ∀ (rs : List AuditResultItem) (acc : String) (r : AuditResultItem),
      r ∈ rs → RuleLevelMap r.level ≤ RuleLevelMap (rs.foldl auditLevelStep acc)
  | r' :: rs, acc, r, h => by
    simp only [List.foldl_cons]
    rcases List.mem_cons.mp h with rfl | h
    · refine le_trans ?_ (auditLevel_foldl_acc_le rs (auditLevelStep acc r))
      unfold auditLevelStep
      by_cases hlt : RuleLevelMap acc < RuleLevelMap r.level
      · rw [if_pos hlt]
      · rw [if_neg hlt]
        omega
    · exact auditLevel_foldl_elem_le rs (auditLevelStep acc r') r h

/-- Of the four known levels, only the normal one has rank zero. -/
theorem level_rank_zero (l : String) (hv : l ∈ knownRuleLevels)
    (h0 : RuleLevelMap l = 0) : l = RuleLevelNormal := by
  have hv4 : l = RuleLevelNormal ∨ l = RuleLevelNotice ∨ l = RuleLevelWarn
      ∨ l = RuleLevelError := by
    simpa [knownRuleLevels] using hv
  rcases hv4 with rfl | rfl | rfl | rfl
  · rfl
  · exact absurd h0 (by decide)
  · exact absurd h0 (by decide)
  · exact absurd h0 (by decide)

/-- C7: `Level()` over an empty finding set returns the normal level,
and over any non-empty set whose findings carry the known levels it
returns a level present among the findings whose rank bounds every
finding's rank — the maximum severity present. -/
theorem auditResult_level_max (rs : List AuditResultItem)
    (hne : rs ≠ [])
    (hvalid : ∀ r ∈ rs, r.level ∈ knownRuleLevels) :
    auditLevel [] = RuleLevelNormal
      ∧ auditLevel rs ∈ rs.map (fun r => r.level)
      ∧ ∀ r ∈ rs, RuleLevelMap r.level ≤ RuleLevelMap (auditLevel rs) := by
  refine ⟨rfl, ?_, fun r hr => auditLevel_foldl_elem_le rs RuleLevelNormal r hr⟩
  rcases auditLevel_foldl_mem rs RuleLevelNormal with h | h
  · rcases rs with _ | ⟨r0, rs'⟩
    · exact absurd rfl hne
    · have hrank0 : RuleLevelMap r0.level = 0 := by
        have hle := auditLevel_foldl_elem_le (r0 :: rs') RuleLevelNormal r0
          (List.mem_cons_self _ _)
        rw [h] at hle
        have hz : RuleLevelMap RuleLevelNormal = 0 := by decide
        omega
      have hr0 : r0.level = RuleLevelNormal :=
        level_rank_zero r0.level (hvalid r0 (List.mem_cons_self _ _)) hrank0
      unfold auditLevel
      rw [h, ← hr0]
      exact List.mem_cons_self _ _
  · exact h

/-- Witness for C7 at a two-finding result holding normal and warn
levels. -/
theorem auditResult_level_max_witness :
    ([⟨RuleLevelNormal, "a"⟩, ⟨RuleLevelWarn, "b"⟩] : List AuditResultItem) ≠ []
      ∧ auditLevel [⟨RuleLevelNormal, "a"⟩, ⟨RuleLevelWarn, "b"⟩]
          ∈ ([⟨RuleLevelNormal, "a"⟩, ⟨RuleLevelWarn, "b"⟩] : List AuditResultItem).map
              (fun r => r.level)
      ∧ ∀ r ∈ ([⟨RuleLevelNormal, "a"⟩, ⟨RuleLevelWarn, "b"⟩] : List AuditResultItem),
          RuleLevelMap r.level
            ≤ RuleLevelMap (auditLevel [⟨RuleLevelNormal, "a"⟩, ⟨RuleLevelWarn, "b"⟩]) := by
  have h := auditResult_level_max [⟨RuleLevelNormal, "a"⟩, ⟨RuleLevelWarn, "b"⟩]
    (by decide) (by decide)
  exact ⟨by decide, h.2.1, h.2.2⟩

/-- C4 evaluation at the failing input: a finding at the error level
whose message is `see Warning` does not begin with any bracketed tag,
yet `Message()` leaves it untagged, because the mis-grouped pattern
matches the substring `Warn` anywhere in the message; the claimed
output would have been the tagged line. -/
theorem auditMessage_mistagged_line :
    auditMessage [⟨RuleLevelError, "see Warning"⟩] = "see Warning"
      ∧ "see Warning" ≠ "[Error]see Warning" := by
  exact ⟨rfl, by decide⟩

/-- String append distributes over the underlying character lists. -/
theorem strData_append (a b : String) : (a ++ b).data = a.data ++ b.data := rfl

/-- A character list is an initial segment of itself followed by
anything. -/
theorem charsStartWith_append_self :
    ∀ (p rest : List Char), charsStartWith p (p ++ rest) = true
  | [], _ => rfl
  | c :: p, rest => by
    simp [charsStartWith, charsStartWith_append_self p rest]

/-- An initial segment also occurs as a contiguous sublist. -/
theorem charsContain_of_startsWith :
    ∀ (p s : List Char), charsStartWith p s = true → charsContain p s = true
  | p, [], h => h
  | p, c :: cs, h => by
    simp [charsContain, h]

/-- Occurrence as a contiguous sublist survives prepending. -/
theorem charsContain_append_left :
    ∀ (front p s : List Char), charsContain p s = true → charsContain p (front ++ s) = true
  | [], _, _, h => h
  | c :: front, p, s, h => by
    simp [charsContain, charsContain_append_left front p s h]

/-- A pattern occurs in any list that embeds it between two others. -/
theorem charsContain_middle (front p rest : List Char) :
    charsContain p (front ++ (p ++ rest)) = true :=
  charsContain_append_left front p (p ++ rest)
    (charsContain_of_startsWith p (p ++ rest) (charsStartWith_append_self p rest))

/-- A line already carrying a bracketed known-level tag matches the
pattern of `Message()`: the error tag through the pattern's anchored
first alternative, the other three through their substring
alternatives. -/
theorem levelTag_selfmatch (l msg : String) (hl : l ∈ knownRuleLevels) :
    levelTagRegexMatch ("[" ++ l ++ "]" ++ msg) = true := by
  have hmid : ∀ lv : String, charsContain lv.data (("[" ++ lv ++ "]" ++ msg).data) = true := by
    intro lv
    have hd : ("[" ++ lv ++ "]" ++ msg).data
        = "[".data ++ (lv.data ++ ("]".data ++ msg.data)) := by
      simp [strData_append, List.append_assoc]
    rw [hd]
    exact charsContain_middle _ _ _
  have hv4 : l = RuleLevelNormal ∨ l = RuleLevelNotice ∨ l = RuleLevelWarn
      ∨ l = RuleLevelError := by
    simpa [knownRuleLevels] using hl
  rcases hv4 with rfl | rfl | rfl | rfl
  · have h4 : strContains ("[" ++ RuleLevelNormal ++ "]" ++ msg) RuleLevelNormal = true :=
      hmid RuleLevelNormal
    unfold levelTagRegexMatch
    rw [h4]
    simp
  · have h4 : strContains ("[" ++ RuleLevelNotice ++ "]" ++ msg) RuleLevelNotice = true :=
      hmid RuleLevelNotice
    unfold levelTagRegexMatch
    rw [h4]
    simp
  · have h4 : strContains ("[" ++ RuleLevelWarn ++ "]" ++ msg) RuleLevelWarn = true :=
      hmid RuleLevelWarn
    unfold levelTagRegexMatch
    rw [h4]
    simp
  · have h1 : strStartsWith ("[" ++ RuleLevelError) ("[" ++ RuleLevelError ++ "]" ++ msg)
        = true := by
      have hd : ("[" ++ RuleLevelError ++ "]" ++ msg).data
          = ("[" ++ RuleLevelError).data ++ ("]".data ++ msg.data) := by
        simp [strData_append, List.append_assoc]
      rw [strStartsWith, hd]
      exact charsStartWith_append_self _ _
    unfold levelTagRegexMatch
    rw [h1]
    simp

/-- C8: a finding whose message already begins with a bracketed
known-level tag keeps its line unchanged under the formatting of
`Message()`, whatever level the finding carries, and consequently
formatting a line twice equals formatting it once — no line is ever
double-tagged. -/
theorem auditMessageLine_no_double_tag (t rest lvl : String)
    (ht : t ∈ knownRuleLevels) :
    auditMessageLine ⟨lvl, "[" ++ t ++ "]" ++ rest⟩ = "[" ++ t ++ "]" ++ rest
      ∧ auditMessageLine ⟨t, auditMessageLine ⟨t, rest⟩⟩ = auditMessageLine ⟨t, rest⟩ := by
  constructor
  · simp [auditMessageLine, levelTag_selfmatch t rest ht]
  · by_cases hm : levelTagRegexMatch rest = true
    · simp [auditMessageLine, hm]
    · have hinner : auditMessageLine ⟨t, rest⟩ = "[" ++ t ++ "]" ++ rest := by
        simp [auditMessageLine, hm]
      rw [hinner]
      simp [auditMessageLine, levelTag_selfmatch t rest ht]

/-- Witness for C8 at the error tag on a concrete message. -/
theorem auditMessageLine_no_double_tag_witness :
    RuleLevelError ∈ knownRuleLevels
      ∧ auditMessageLine ⟨RuleLevelWarn, "[" ++ RuleLevelError ++ "]" ++ "bad col"⟩
          = "[" ++ RuleLevelError ++ "]" ++ "bad col" := by
  have h := auditMessageLine_no_double_tag RuleLevelError "bad col" RuleLevelWarn (by decide)
  exact ⟨by decide, h.1⟩

/-- C10: `Add` with an empty level or an empty message leaves the
finding list unchanged, hence `Level()` and `Message()` are unchanged
too. -/
theorem auditAdd_noop {α : Type} (sprintf : String → List α → String)
    (rs : List AuditResultItem) (level message : String) (args : List α)
    (h : level = "" ∨ message = "") :
    auditAdd sprintf rs level message args = rs
      ∧ auditLevel (auditAdd sprintf rs level message args) = auditLevel rs
      ∧ auditMessage (auditAdd sprintf rs level message args) = auditMessage rs := by
  have he : auditAdd sprintf rs level message args = rs := by
    rcases h with rfl | rfl <;> simp [auditAdd]
  exact ⟨he, by rw [he], by rw [he]⟩

/-- Witness for C10: adding with an empty level onto a one-finding
result changes nothing. -/
theorem auditAdd_noop_witness :
    (("" : String) = "" ∨ ("x" : String) = "")
      ∧ auditAdd (fun (m : String) (_ : List Unit) => m)
          [⟨RuleLevelWarn, "w"⟩] "" "x" [] = [⟨RuleLevelWarn, "w"⟩] := by
  have h := auditAdd_noop (fun (m : String) (_ : List Unit) => m)
    [⟨RuleLevelWarn, "w"⟩] "" "x" [] (Or.inl rfl)
  exact ⟨Or.inl rfl, h.1⟩

/-- C6 counterexample: requesting an unregistered engine type makes
`NewDriver` return the plain `fmt.Errorf` error — an error value that
is not of the declared `ErrDriverNotSupported` type, contrary to the
claim. -/
theorem newDriver_untyped_error_counterexample :
    NewDriver demoDrivers ⟨"oracle"⟩
        = .error (.errorf "driver type oracle is not supported")
      ∧ isTypedNotSupported (NewDriver demoDrivers ⟨"oracle"⟩) = false :=
  ⟨rfl, rfl⟩

/-- C6 amended: for an absent engine-type name `NewDriver` always
returns the plain formatted error naming the unknown type (and never a
value of the declared `ErrDriverNotSupported` type, which the source
never constructs); for a present name it returns exactly what the
registered handler returns, so no registry-generated not-supported
error. -/
theorem newDriver_lookup_contract {δ : Type}
    (drivers : List (String × (Instance → Except GoError δ))) (inst : Instance) :
    (lookupDriver drivers inst.dbType = none →
        NewDriver drivers inst
            = .error (.errorf ("driver type " ++ inst.dbType ++ " is not supported"))
          ∧ isTypedNotSupported (NewDriver drivers inst) = false)
      ∧ ∀ d, lookupDriver drivers inst.dbType = some d →
          NewDriver drivers inst = d inst := by
  constructor
  · intro h
    constructor
    · simp [NewDriver, h]
    · simp [NewDriver, h, isTypedNotSupported]
  · intro d h
    simp [NewDriver, h]

/-- Witness for the amended C6 at the registered engine type. -/
theorem newDriver_lookup_contract_witness :
    lookupDriver demoDrivers "mysql" = some (fun _ => Except.ok ())
      ∧ NewDriver demoDrivers ⟨"mysql"⟩ = Except.ok () := by
  have h := (newDriver_lookup_contract demoDrivers ⟨"mysql"⟩).2
    (fun _ => Except.ok ()) rfl
  exact ⟨rfl, by rw [h]⟩
